import Mathlib

/-!
Verification development for the PDF-Translator repository.

The definitions below are a shallow embedding of the Python sources:
  * `format_language_code`, the translation cache files, `translate_chunk`
    and its service-fallback loop come from `scripts/pdf_processor.py`;
  * `robust_translate_text` and `create_translated_pdf` come from
    `scripts/robust_pdf_translator.py`;
  * `span_skip` comes from the span-processing loop of
    `scripts/guaranteed_translate.py`;
  * the OCR post-processing comes from `extract_text_with_ocr` in
    `scripts/pdf_processor.py`.

External translation services are modelled by an oracle: `none` models a
raised exception, `some s` a returned string.  Geometric quantities are
rationals.  The MD5 content hash used as a cache key is modelled by the
text itself (an injective content key, which is all the cache logic relies
on).  Python's `lru_cache` memo table is modelled as an unbounded
association list (two consecutive identical calls never straddle an
eviction).
-/

namespace PDFTranslator

/-- Association-list lookup keyed by decidable equality. -/
def lookupA {α β : Type} [DecidableEq α] : List (α × β) → α → Option β
  | [], _ => none
  | (k, v) :: rest, a => if k = a then some v else lookupA rest a

/-- Association-list insert-or-replace (used for writing a cache file). -/
def insertA {α β : Type} [DecidableEq α] : List (α × β) → α → β → List (α × β)
  | [], a, b => [(a, b)]
  | (k, v) :: rest, a, b =>
    if k = a then (a, b) :: rest else (k, v) :: insertA rest a b

/-- Association-list removal (used for `os.remove` of a cache file). -/
def removeA {α β : Type} [DecidableEq α] : List (α × β) → α → List (α × β)
  | [], _ => []
  | (k, v) :: rest, a =>
    if k = a then removeA rest a else (k, v) :: removeA rest a

/-- ASCII lower-casing applied character by character, the model of
Python's `str.lower` for the Latin-script codes the tool handles. -/
def toLowerStr (s : String) : String :=
  String.mk (s.data.map Char.toLower)

/-- Strip of leading and trailing whitespace, the model of Python's
`str.strip`. -/
def strTrim (s : String) : String :=
  String.mk (((s.data.dropWhile Char.isWhitespace).reverse.dropWhile
    Char.isWhitespace).reverse)

/-- The special-case language map of `format_language_code`
(`pdf_processor.py` lines 529-593), transcribed entry for entry. -/
def language_map : List (String × String) :=
  [("zh-cn", "zh-CN"), ("zh-tw", "zh-TW"), ("zh-hans", "zh-CN"),
   ("zh-hant", "zh-TW"), ("zh", "zh-CN"), ("chinese", "zh-CN"),
   ("chinese simplified", "zh-CN"), ("chinese traditional", "zh-TW"),
   ("iw", "he"), ("hebrew", "he"),
   ("jw", "jv"), ("javanese", "jv"),
   ("nb", "no"), ("nn", "no"), ("norwegian", "no"),
   ("norwegian bokmål", "no"), ("norwegian nynorsk", "no"),
   ("fil", "tl"), ("filipino", "tl"), ("tagalog", "tl"),
   ("english", "en"), ("spanish", "es"), ("french", "fr"),
   ("german", "de"), ("italian", "it"), ("portuguese", "pt"),
   ("russian", "ru"), ("japanese", "ja"), ("korean", "ko"),
   ("arabic", "ar"), ("hindi", "hi"), ("bengali", "bn"),
   ("dutch", "nl"), ("turkish", "tr"), ("vietnamese", "vi"),
   ("thai", "th"), ("persian", "fa"), ("polish", "pl"),
   ("ukrainian", "uk"), ("swedish", "sv"), ("finnish", "fi"),
   ("danish", "da"), ("greek", "el"), ("czech", "cs"),
   ("hungarian", "hu"), ("romanian", "ro"),
   ("auto-detect", "auto"), ("automatic", "auto"), ("unknown", "auto"),
   ("ca", "es")]

/-- Word character of the regex `\b` boundary (ASCII fragment of Python's
`\w`: letters, digits, underscore). -/
def isWordChar (c : Char) : Bool := c.isAlphanum || c = '_'

/-- Lower-case Latin letter, the `[a-z]` character class. -/
def isLowerLatin (c : Char) : Bool := 'a' ≤ c && c ≤ 'z'

/-- A word boundary holds before the current position given the preceding
character (`none` at the start of the string). -/
def boundaryBefore (prev : Option Char) : Bool :=
  match prev with
  | none => true
  | some c => !(isWordChar c)

/-- A word boundary holds after the match given the remaining characters. -/
def boundaryAfter (rest : List Char) : Bool :=
  match rest with
  | [] => true
  | c :: _ => !(isWordChar c)

/-- Leftmost match of the regex search `\b([a-z]{2})\b`
(`pdf_processor.py` line 606). -/
def find_iso2_from (prev : Option Char) : List Char → Option String
  | c1 :: c2 :: rest =>
    if boundaryBefore prev && isLowerLatin c1 && isLowerLatin c2 &&
        boundaryAfter rest then
      some (String.mk [c1, c2])
    else
      find_iso2_from (some c1) (c2 :: rest)
  | _ => none

/-- Leftmost match of the regex search `\b([a-z]{2})-([a-z]{2})\b`
(`pdf_processor.py` line 612), returning the language and region groups. -/
def find_iso2_region_from (prev : Option Char) :
    List Char → Option (String × String)
  | c1 :: c2 :: c3 :: c4 :: c5 :: rest =>
    if boundaryBefore prev && isLowerLatin c1 && isLowerLatin c2 &&
        c3 = '-' && isLowerLatin c4 && isLowerLatin c5 &&
        boundaryAfter rest then
      some (String.mk [c1, c2], String.mk [c4, c5])
    else
      find_iso2_region_from (some c1) (c2 :: c3 :: c4 :: c5 :: rest)
  | _ => none

/-- Embedding of `format_language_code` (`pdf_processor.py` lines 520-633):
special map lookup on the lowered code, then two-letter code extraction
from longer strings, then two-letter pass-through, else `auto`. -/
def format_language_code (code : String) : String :=
  if code = "auto" || code = "" then "auto"
  else
    let lower := toLowerStr code
    match lookupA language_map lower with
    | some mapped => mapped
    | none =>
      if 2 < code.length then
        match find_iso2_from none lower.data with
        | some extracted => extracted
        | none =>
          match find_iso2_region_from none lower.data with
          | some (lang, region) =>
            if lang = "zh" then
              if region = "cn" || region = "hans" then "zh-CN"
              else if region = "tw" || region = "hk" || region = "hant" then
                "zh-TW"
              else lang
            else lang
          | none => if code.length = 2 then toLowerStr code else "auto"
      else if code.length = 2 then toLowerStr code else "auto"

/-- Cache file name for a language pair (`get_cache_path`,
`pdf_processor.py` lines 640-643; the constant cache directory prefix is
dropped). -/
def get_cache_path (source_lang target_lang : String) : String :=
  "translation_cache_" ++ source_lang ++ "_" ++ target_lang ++ ".json"

/-- The on-disk cache state: file name to JSON mapping of content key to
translated text. -/
abbrev Disk := List (String × List (String × String))

/-- Embedding of `load_translation_cache` (`pdf_processor.py` lines
645-654): a missing or unreadable file yields the empty mapping. -/
def load_translation_cache (disk : Disk) (source_lang target_lang : String) :
    List (String × String) :=
  (lookupA disk (get_cache_path source_lang target_lang)).getD []

/-- Embedding of `save_translation_cache` (`pdf_processor.py` lines
656-663): write the mapping to the pair's cache file. -/
def save_translation_cache (disk : Disk) (cache : List (String × String))
    (source_lang target_lang : String) : Disk :=
  insertA disk (get_cache_path source_lang target_lang) cache

/-- Embedding of the cache-clearing step at the start of
`translate_pdf_with_images` (`pdf_processor.py` lines 1171-1179):
`os.remove` of the pair's cache file. -/
def clear_cache_file (disk : Disk) (source_lang target_lang : String) : Disk :=
  removeA disk (get_cache_path source_lang target_lang)

/-- The cache visible to a pipeline run: the run first deletes the pair's
cache file, then loads it (`pdf_processor.py` lines 1171-1183). -/
def pipeline_start_cache (disk : Disk) (source_lang target_lang : String) :
    List (String × String) :=
  load_translation_cache (clear_cache_file disk source_lang target_lang)
    source_lang target_lang

/-- The external translation backends used by `translate_chunk`:
Google, MyMemory, and the sentence-chunking last resort. -/
inductive Backend
  | google
  | mymemory
  | chunked
deriving DecidableEq, Repr

/-- One external strategy invocation: which backend, with which source and
target language codes. -/
structure Attempt where
  backend : Backend
  source : String
  target : String
deriving DecidableEq, Repr

/-- Outcome oracle for external strategy invocations: given the attempt
and the global invocation counter, `none` models a raised exception and
`some s` a returned string. -/
abbrev Oracle := Attempt → Nat → Option String

/-- Mutable state threaded through `translate_chunk`: the `lru_cache` memo
table keyed by the call arguments, the on-disk cache files, the number of
external strategy invocations made so far, and their trace. -/
structure TransState where
  memo : List ((String × String × String) × String)
  disk : Disk
  calls : Nat
  trace : List Attempt
deriving DecidableEq, Repr

/-- The ordered strategy list of `translate_chunk` (`pdf_processor.py`
lines 696-712): Google with the formatted source, Google with auto
detection, MyMemory with the formatted source, MyMemory with auto
detection, then sentence-level chunk translation. -/
def chunkServices (fsrc ftgt : String) : List Attempt :=
  [⟨Backend.google, fsrc, ftgt⟩,
   ⟨Backend.google, "auto", ftgt⟩,
   ⟨Backend.mymemory, fsrc, ftgt⟩,
   ⟨Backend.mymemory, "auto", ftgt⟩,
   ⟨Backend.chunked, fsrc, ftgt⟩]

/-- The service loop of `translate_chunk` (`pdf_processor.py` lines
714-731): try each strategy in order; a strategy succeeds when it returns
a non-blank string different from the cleaned input; exceptions and
blank or unchanged results move on to the next strategy.  Returns the
result, the updated state and whether a strategy succeeded. -/
def tryServices (o : Oracle) (cleaned : String) :
    List Attempt → TransState → String × TransState × Bool
  | [], st => (cleaned, st, false)
  | a :: rest, st =>
    let res := o a st.calls
    let st1 : TransState :=
      { st with calls := st.calls + 1, trace := st.trace ++ [a] }
    match res with
    | some t =>
      if strTrim t ≠ "" ∧ t ≠ cleaned then (t, st1, true)
      else tryServices o cleaned rest st1
    | none => tryServices o cleaned rest st1

/-- The disk-cache lookup at the top of `translate_chunk`
(`pdf_processor.py` lines 671-681): a hit counts only when the stored
entry is non-blank; a blank entry falls through to translation. -/
def cache_lookup (st : TransState) (source_code target_code text : String) :
    Option String :=
  match lookupA (load_translation_cache st.disk source_code target_code) text with
  | some c => if strTrim c ≠ "" then some c else none
  | none => none

/-- Body of `translate_chunk` (`pdf_processor.py` lines 665-734), without
the `lru_cache` wrapper: blank input returns the empty string; a non-blank
disk-cache hit is returned; fragments whose cleaned form is shorter than
2 characters are returned cleaned without any service call; otherwise the
strategy list is tried in order and a success is written back to the
pair's cache file, while total failure returns the cleaned input. -/
def translate_chunk_body (o : Oracle) (text source_code target_code : String)
    (st : TransState) : String × TransState :=
  if strTrim text = "" then ("", st)
  else
    match cache_lookup st source_code target_code text with
    | some c => (c, st)
    | none =>
      let fsrc := format_language_code source_code
      let ftgt := format_language_code target_code
      let cleaned := strTrim text
      if cleaned.length < 2 then (cleaned, st)
      else
        match tryServices o cleaned (chunkServices fsrc ftgt) st with
        | (r, st1, true) =>
          (r, { st1 with
                  disk := save_translation_cache st1.disk
                    (insertA (load_translation_cache st.disk source_code target_code)
                      text r)
                    source_code target_code })
        | (r, st1, false) => (r, st1)

/-- Embedding of `translate_chunk` with its `@lru_cache` wrapper
(`pdf_processor.py` line 665): a memoised call returns the stored result
without executing the body; otherwise the body runs and its result is
memoised under the call arguments. -/
def translate_chunk (o : Oracle) (text source_code target_code : String)
    (st : TransState) : String × TransState :=
  match lookupA st.memo (text, source_code, target_code) with
  | some r => (r, st)
  | none =>
    let p := translate_chunk_body o text source_code target_code st
    (p.1, { p.2 with memo := ((text, source_code, target_code), p.1) :: p.2.memo })

/-- Embedding of `translate_text` from `robust_pdf_translator.py` (lines
47-71): blank input returns the empty string; equal raw language codes
return the input unchanged; otherwise one Google call with the given
source, on exception one Google call with `auto`, and on a second
exception the original text.  The oracle's `none` models a raised
exception; any returned string is accepted as-is. -/
def robust_translate_text (o : Nat → Option String)
    (text source_lang target_lang : String) : String :=
  if strTrim text = "" then ""
  else if source_lang = target_lang then text
  else
    match o 0 with
    | some t => t
    | none =>
      match o 1 with
      | some t => t
      | none => text

/-- A positioned text block as extracted by `page.get_text("blocks")`. -/
structure Block where
  x0 : ℚ
  y0 : ℚ
  x1 : ℚ
  y1 : ℚ
  text : String
deriving DecidableEq, Repr

/-- A source page: its dimensions and its text blocks. -/
structure Page where
  width : ℚ
  height : ℚ
  blocks : List Block
deriving DecidableEq, Repr

/-- A reconstructed output page: created with the source page's
dimensions, carrying the full-page content copy plus the
cover-rectangle/translated-text overlays. -/
structure OutPage where
  width : ℚ
  height : ℚ
  background : List Block
  overlays : List (Block × String)
deriving DecidableEq, Repr

/-- Page reconstruction of `translate_pdf_with_images` phase 3
(`pdf_processor.py` lines 1413-1624): a new page with the same width and
height, the whole source page copied as background, and for each block
whose stripped text has at least 2 characters and whose mapped
translation is non-blank and different from the original, a cover
rectangle with the translated text; other blocks keep the original
visible text. -/
def reconstruct_page (mapping : String → String) (p : Page) : OutPage :=
  { width := p.width
    height := p.height
    background := p.blocks
    overlays := p.blocks.filterMap fun b =>
      if (strTrim b.text).length < 2 then none
      else
        let t := mapping b.text
        if strTrim t = "" ∨ t = b.text then none
        else some (b, t) }

/-- The visible text a block contributes after reconstruction: the
translated overlay when one is painted, the original text otherwise. -/
def renderBlockText (mapping : String → String) (blockText : String) : String :=
  if (strTrim blockText).length < 2 then blockText
  else
    let t := mapping blockText
    if strTrim t = "" ∨ t = blockText then blockText
    else t

/-- Output of `translate_pdf_with_images`: either a byte-for-byte copy of
the input document (same-language short-circuit) or a rebuilt document. -/
inductive PdfOutput
  | copied (doc : List Page)
  | rebuilt (pages : List OutPage)
deriving DecidableEq, Repr

/-- Embedding of the document-level flow of `translate_pdf_with_images`
(`pdf_processor.py` lines 1152-1633): if the formatted source and target
codes are equal and not `auto`, the input file is copied to the output
path; otherwise every page is reconstructed (the temporary font-test page
is created and deleted again and leaves no trace in the output). -/
def translate_pdf_with_images (mapping : String → String) (doc : List Page)
    (source_lang target_lang : String) : PdfOutput :=
  if format_language_code source_lang = format_language_code target_lang ∧
      format_language_code source_lang ≠ "auto" then
    PdfOutput.copied doc
  else
    PdfOutput.rebuilt (doc.map (reconstruct_page mapping))

/-- Page dimensions of a pipeline output document, in page order. -/
def outputDims : PdfOutput → List (ℚ × ℚ)
  | PdfOutput.copied doc => doc.map fun p => (p.width, p.height)
  | PdfOutput.rebuilt pages => pages.map fun p => (p.width, p.height)

/-- Page count of a pipeline output document. -/
def outputPageCount : PdfOutput → Nat
  | PdfOutput.copied doc => doc.length
  | PdfOutput.rebuilt pages => pages.length

/-- Page loop of `create_translated_pdf` from `robust_pdf_translator.py`
(lines 128-134) carrying the running page number: each input page yields
one output page created with the input page's width and height, the page
content copied, and that page's translated blocks overlaid. -/
def create_translated_pdf_go (blocksByPage : Nat → List (Block × String)) :
    Nat → List Page → List OutPage
  | _, [] => []
  | n, p :: rest =>
    { width := p.width
      height := p.height
      background := p.blocks
      overlays := blocksByPage n } :: create_translated_pdf_go blocksByPage (n + 1) rest

/-- Embedding of `create_translated_pdf` (`robust_pdf_translator.py`
lines 110-189): iterate the input pages from page 0. -/
def create_translated_pdf (doc : List Page)
    (blocksByPage : Nat → List (Block × String)) : List OutPage :=
  create_translated_pdf_go blocksByPage 0 doc

/-- The skip test of the span-processing loop in
`guaranteed_translate.py` (lines 212-216): the span text is stripped and
the span is skipped when the result is empty or shorter than 2
characters. -/
def span_skip (rawSpanText : String) : Bool :=
  let text := strTrim rawSpanText
  text = "" || text.length < 2

/-- Initial font size of `translate_pdf_with_images`
(`pdf_processor.py` lines 1514-1520): the 11pt base scaled by
`min 1 (original_len / max 1 translated_len)` and floored at 8pt. -/
def initial_fontsize (original_len translated_len : Nat) : ℚ :=
  max 8 (11 * min 1 ((original_len : ℚ) / max 1 (translated_len : ℚ)))

/-- Font-size reduction step when the text box does not fit
(`pdf_processor.py` line 1577): shrink by the factor 0.8, floored at 6pt. -/
def shrink_fontsize (fontsize : ℚ) : ℚ :=
  max 6 (fontsize * 0.8)

/-- Single-character global replacement, the meaning of Python's
`str.replace` for one-character patterns. -/
def replaceChar (a b : Char) (l : List Char) : List Char :=
  l.map fun c => if c = a then b else c

/-- The OCR error fixes of `extract_text_with_ocr` (`pdf_processor.py`
lines 244-247), applied in source order to the whole extracted text:
`|` to `I`, then `0` to `O`, then `1` to `l`. -/
def fix_ocr_errors (s : String) : String :=
  String.mk (replaceChar '1' 'l' (replaceChar '0' 'O' (replaceChar '|' 'I' s.data)))

/-- A strategy result counts as a successful translation of the cleaned
text `c` when it is a returned string that is non-blank and different
from `c` (`pdf_processor.py` line 721). -/
def GoodRes (res : Option String) (c : String) : Prop :=
  ∃ t, res = some t ∧ strTrim t ≠ "" ∧ t ≠ c

/-- Placeholder attempt used with `List.getD`; every access is in
bounds, so its value is irrelevant. -/
def defaultAttempt : Attempt :=
  ⟨Backend.google, "", ""⟩

/-- Oracle modelling a total translation-service outage: every external
call raises. -/
def outageOracle : Oracle := fun _ _ => none

/-- Single-service oracle modelling a total outage for the robust
translator. -/
def outageOracle1 : Nat → Option String := fun _ => none

/-- Oracle whose every call returns the fixed string `s`. -/
def constOracle (s : String) : Oracle := fun _ _ => some s

/-- Single-service oracle whose every call returns the fixed string `s`. -/
def constOracle1 (s : String) : Nat → Option String := fun _ => some s

/-! ## Helper lemmas -/

lemma lookupA_insertA_self {α β : Type} [DecidableEq α]
    (l : List (α × β)) (a : α) (b : β) :
    lookupA (insertA l a b) a = some b := by
  induction l with
  | nil => simp [insertA, lookupA]
  | cons kv rest ih =>
    obtain ⟨k, v⟩ := kv
    by_cases h : k = a
    · simp [insertA, lookupA, h]
    · simp [insertA, lookupA, h, ih]

lemma lookupA_removeA_self {α β : Type} [DecidableEq α]
    (l : List (α × β)) (a : α) :
    lookupA (removeA l a) a = none := by
  induction l with
  | nil => simp [removeA, lookupA]
  | cons kv rest ih =>
    obtain ⟨k, v⟩ := kv
    by_cases h : k = a
    · simp [removeA, h, ih]
    · simp [removeA, lookupA, h, ih]

lemma create_translated_pdf_go_dims (blocksByPage : Nat → List (Block × String)) :
    ∀ (doc : List Page) (n : Nat),
      (create_translated_pdf_go blocksByPage n doc).map (fun p => (p.width, p.height))
          = doc.map (fun p => (p.width, p.height)) ∧
        (create_translated_pdf_go blocksByPage n doc).length = doc.length := by
  intro doc
  induction doc with
  | nil => intro n; exact ⟨rfl, rfl⟩
  | cons p rest ih =>
    intro n
    refine ⟨?_, ?_⟩
    · simp [create_translated_pdf_go, (ih (n + 1)).1]
    · simp [create_translated_pdf_go, (ih (n + 1)).2]

lemma ocrFix_char_ne (c : Char) :
    (if c = '|' then 'I' else if c = '0' then 'O' else if c = '1' then 'l' else c) ≠ '|' ∧
      (if c = '|' then 'I' else if c = '0' then 'O' else if c = '1' then 'l' else c) ≠ '0' ∧
      (if c = '|' then 'I' else if c = '0' then 'O' else if c = '1' then 'l' else c) ≠ '1' := by
  by_cases h1 : c = '|'
  · simp [h1]
  · by_cases h2 : c = '0'
    · simp [h1, h2]
    · by_cases h3 : c = '1'
      · simp [h1, h2, h3]
      · simp [h1, h2, h3]

lemma fix_ocr_errors_eq_map (l : List Char) :
    replaceChar '1' 'l' (replaceChar '0' 'O' (replaceChar '|' 'I' l))
      = l.map (fun c => if c = '|' then 'I' else if c = '0' then 'O'
          else if c = '1' then 'l' else c) := by
  induction l with
  | nil => rfl
  | cons c rest ih =>
    simp only [replaceChar, List.map] at ih ⊢
    rw [ih]
    congr 1
    by_cases h1 : c = '|'
    · simp [h1]
    · by_cases h2 : c = '0'
      · simp [h1, h2]
      · by_cases h3 : c = '1'
        · simp [h1, h2, h3]
        · simp [h1, h2, h3]

/-- Complete characterisation of the service-fallback loop `tryServices`:
some number `k` of strategies is consumed in order (trace and call
counter grow by exactly the `k`-prefix of the list), every strategy
before the last consumed one failed, a `false` flag means every strategy
failed and the cleaned text is returned, and a `true` flag means the last
consumed strategy returned the non-blank, changed result. -/
lemma tryServices_spec (o : Oracle) (c : String) (l : List Attempt) :
    ∀ st : TransState,
      ∃ k : Nat,
        k ≤ l.length ∧
          (l ≠ [] → 1 ≤ k) ∧
          (tryServices o c l st).2.1.memo = st.memo ∧
          (tryServices o c l st).2.1.disk = st.disk ∧
          (tryServices o c l st).2.1.calls = st.calls + k ∧
          (tryServices o c l st).2.1.trace = st.trace ++ l.take k ∧
          (∀ j, j + 1 < k →
            ¬ GoodRes (o (l.getD j defaultAttempt) (st.calls + j)) c) ∧
          ((tryServices o c l st).2.2 = false →
            (tryServices o c l st).1 = c ∧ k = l.length ∧
              ∀ j, j < k →
                ¬ GoodRes (o (l.getD j defaultAttempt) (st.calls + j)) c) ∧
          ((tryServices o c l st).2.2 = true →
            1 ≤ k ∧
              o (l.getD (k - 1) defaultAttempt) (st.calls + (k - 1))
                = some (tryServices o c l st).1 ∧
              strTrim (tryServices o c l st).1 ≠ "" ∧
              (tryServices o c l st).1 ≠ c) := by
  induction l with
  | nil =>
    intro st
    refine ⟨0, by simp, by simp, rfl, rfl, by simp [tryServices],
      by simp [tryServices], ?_, ?_, ?_⟩
    · exact fun j hj => absurd hj (by omega)
    · exact fun _ => ⟨rfl, rfl, fun j hj => absurd hj (by omega)⟩
    · intro hok
      simp [tryServices] at hok
  | cons a rest ih =>
    intro st
    cases hres : o a st.calls with
    | some t =>
      by_cases hg : strTrim t ≠ "" ∧ t ≠ c
      · simp only [tryServices, hres, if_pos hg]
        refine ⟨1, ?_, ?_, ?_, ?_, ?_, ?_, ?_, ?_, ?_⟩
        · exact Nat.succ_le_succ (Nat.zero_le _)
        · exact fun _ => le_refl 1
        · trivial
        · trivial
        · trivial
        · trivial
        · exact fun j hj => absurd hj (by omega)
        · intro hok
          simp at hok
        · exact fun _ => ⟨le_refl 1, hres, hg.1, hg.2⟩
      · obtain ⟨k, hk1, hk2, hk3, hk4, hk5, hk6, hk7, hk8, hk9⟩ :=
          ih { st with calls := st.calls + 1, trace := st.trace ++ [a] }
        have hheadfail : ¬ GoodRes (o a st.calls) c := by
          intro hgood
          rcases hgood with ⟨t', ht', htr', htc'⟩
          rw [hres] at ht'
          injection ht' with h
          exact hg ⟨h ▸ htr', h ▸ htc'⟩
        simp only [tryServices, hres, if_neg hg]
        refine ⟨k + 1, ?_, ?_, ?_, ?_, ?_, ?_, ?_, ?_, ?_⟩
        · exact Nat.succ_le_succ hk1
        · exact fun _ => Nat.succ_le_succ (Nat.zero_le k)
        · exact hk3
        · exact hk4
        · rw [hk5]
          show st.calls + 1 + k = st.calls + (k + 1)
          omega
        · rw [hk6]
          show (st.trace ++ [a]) ++ rest.take k = st.trace ++ (a :: rest).take (k + 1)
          simp [List.take_succ_cons]
        · intro j hj
          cases j with
          | zero => exact hheadfail
          | succ j' =>
            rw [show st.calls + (j' + 1) = st.calls + 1 + j' from by omega]
            exact hk7 j' (by omega)
        · intro hok
          obtain ⟨hr, hklen, hall⟩ := hk8 hok
          refine ⟨hr, by simp [hklen], ?_⟩
          intro j hj
          cases j with
          | zero => exact hheadfail
          | succ j' =>
            rw [show st.calls + (j' + 1) = st.calls + 1 + j' from by omega]
            exact hall j' (by omega)
        · intro hok
          obtain ⟨hkk, hsucc, htr, hne⟩ := hk9 hok
          obtain ⟨m, rfl⟩ : ∃ m, k = m + 1 := ⟨k - 1, by omega⟩
          refine ⟨by omega, ?_, htr, hne⟩
          rw [show st.calls + (m + 1 + 1 - 1) = st.calls + 1 + m from by omega]
          exact hsucc
    | none =>
      obtain ⟨k, hk1, hk2, hk3, hk4, hk5, hk6, hk7, hk8, hk9⟩ :=
        ih { st with calls := st.calls + 1, trace := st.trace ++ [a] }
      have hheadfail : ¬ GoodRes (o a st.calls) c := by
        intro hgood
        rcases hgood with ⟨t', ht', _, _⟩
        rw [hres] at ht'
        exact Option.noConfusion ht'
      simp only [tryServices, hres]
      refine ⟨k + 1, ?_, ?_, ?_, ?_, ?_, ?_, ?_, ?_, ?_⟩
      · exact Nat.succ_le_succ hk1
      · exact fun _ => Nat.succ_le_succ (Nat.zero_le k)
      · exact hk3
      · exact hk4
      · rw [hk5]
        show st.calls + 1 + k = st.calls + (k + 1)
        omega
      · rw [hk6]
        show (st.trace ++ [a]) ++ rest.take k = st.trace ++ (a :: rest).take (k + 1)
        simp [List.take_succ_cons]
      · intro j hj
        cases j with
        | zero => exact hheadfail
        | succ j' =>
          rw [show st.calls + (j' + 1) = st.calls + 1 + j' from by omega]
          exact hk7 j' (by omega)
      · intro hok
        obtain ⟨hr, hklen, hall⟩ := hk8 hok
        refine ⟨hr, by simp [hklen], ?_⟩
        intro j hj
        cases j with
        | zero => exact hheadfail
        | succ j' =>
          rw [show st.calls + (j' + 1) = st.calls + 1 + j' from by omega]
          exact hall j' (by omega)
      · intro hok
        obtain ⟨hkk, hsucc, htr, hne⟩ := hk9 hok
        obtain ⟨m, rfl⟩ : ∃ m, k = m + 1 := ⟨k - 1, by omega⟩
        refine ⟨by omega, ?_, htr, hne⟩
        rw [show st.calls + (m + 1 + 1 - 1) = st.calls + 1 + m from by omega]
        exact hsucc

lemma load_save_translation_cache (disk : Disk) (cache : List (String × String))
    (source_lang target_lang : String) :
    load_translation_cache
        (save_translation_cache disk cache source_lang target_lang)
        source_lang target_lang = cache := by
  unfold load_translation_cache save_translation_cache
  rw [lookupA_insertA_self]
  rfl

/-- On a fragment whose stripped text is shorter than 2 characters,
`translate_chunk` never reaches the service loop: the call counter and
the attempt trace are unchanged on every path. -/
lemma translate_chunk_short_nocalls (o : Oracle)
    (text source_code target_code : String) (st : TransState)
    (hshort : (strTrim text).length < 2) :
    (translate_chunk o text source_code target_code st).2.calls = st.calls ∧
      (translate_chunk o text source_code target_code st).2.trace = st.trace := by
  cases hm : lookupA st.memo (text, source_code, target_code) with
  | some r => simp only [translate_chunk, hm]; constructor <;> trivial
  | none =>
    simp only [translate_chunk, hm, translate_chunk_body]
    by_cases hb : strTrim text = ""
    · rw [if_pos hb]; constructor <;> trivial
    · rw [if_neg hb]
      cases hc : cache_lookup st source_code target_code text with
      | some c => simp only [hc]; constructor <;> trivial
      | none =>
        simp only [hc]
        rw [if_pos hshort]
        constructor <;> trivial

/-- On a memo and cache miss, a fragment whose stripped text is shorter
than 2 characters is returned cleaned, without translation. -/
lemma translate_chunk_short_result (o : Oracle)
    (text source_code target_code : String) (st : TransState)
    (hmemo : lookupA st.memo (text, source_code, target_code) = none)
    (hcache : cache_lookup st source_code target_code text = none)
    (hshort : (strTrim text).length < 2) :
    (translate_chunk o text source_code target_code st).1 = strTrim text := by
  simp only [translate_chunk, hmemo, translate_chunk_body]
  by_cases hb : strTrim text = ""
  · rw [if_pos hb]
    exact hb.symm
  · rw [if_neg hb]
    simp only [hcache]
    rw [if_pos hshort]

/-- On a memo and cache miss with a translatable fragment (stripped
length at least 2), `translate_chunk` runs the strategy loop: it consumes
an in-order prefix of the five strategies, every strategy before the
final one failed, returning the cleaned text means all five strategies
were exhausted, and returning anything else means the final consumed
strategy produced that non-blank changed text, which is also written to
the pair's disk cache under the content key. -/
lemma translate_chunk_services_spec (o : Oracle)
    (text source_code target_code : String) (st : TransState)
    (hmemo : lookupA st.memo (text, source_code, target_code) = none)
    (hcache : cache_lookup st source_code target_code text = none)
    (hlen : 2 ≤ (strTrim text).length) :
    ∃ k : Nat, 1 ≤ k ∧ k ≤ 5 ∧
      (translate_chunk o text source_code target_code st).2.calls
        = st.calls + k ∧
      (translate_chunk o text source_code target_code st).2.trace
        = st.trace ++ (chunkServices (format_language_code source_code)
            (format_language_code target_code)).take k ∧
      (∀ j, j + 1 < k →
        ¬ GoodRes (o ((chunkServices (format_language_code source_code)
            (format_language_code target_code)).getD j defaultAttempt)
          (st.calls + j)) (strTrim text)) ∧
      ((translate_chunk o text source_code target_code st).1 = strTrim text →
        k = 5 ∧ ∀ j, j < 5 →
          ¬ GoodRes (o ((chunkServices (format_language_code source_code)
              (format_language_code target_code)).getD j defaultAttempt)
            (st.calls + j)) (strTrim text)) ∧
      ((translate_chunk o text source_code target_code st).1 ≠ strTrim text →
        o ((chunkServices (format_language_code source_code)
              (format_language_code target_code)).getD (k - 1) defaultAttempt)
            (st.calls + (k - 1))
          = some (translate_chunk o text source_code target_code st).1 ∧
        strTrim (translate_chunk o text source_code target_code st).1 ≠ "" ∧
        lookupA (load_translation_cache
            (translate_chunk o text source_code target_code st).2.disk
            source_code target_code) text
          = some (translate_chunk o text source_code target_code st).1) := by
  have hne : strTrim text ≠ "" := by
    intro h
    rw [h] at hlen
    exact absurd hlen (by decide)
  have hnl : ¬ (strTrim text).length < 2 := by omega
  obtain ⟨k, hk1, hk2, hk3, hk4, hk5, hk6, hk7, hk8, hk9⟩ :=
    tryServices_spec o (strTrim text)
      (chunkServices (format_language_code source_code)
        (format_language_code target_code)) st
  have hk5' : k ≤ 5 := by simpa [chunkServices] using hk1
  have hk1' : 1 ≤ k := hk2 (by simp [chunkServices])
  rcases hT : tryServices o (strTrim text)
      (chunkServices (format_language_code source_code)
        (format_language_code target_code)) st with ⟨r, st1, ok⟩
  rw [hT] at hk3 hk4 hk5 hk6 hk8 hk9
  have hval : translate_chunk o text source_code target_code st
      = (r, { memo := ((text, source_code, target_code), r) :: st1.memo,
              disk := if ok then
                  save_translation_cache st1.disk
                    (insertA (load_translation_cache st.disk source_code target_code)
                      text r) source_code target_code
                else st1.disk,
              calls := st1.calls,
              trace := st1.trace }) := by
    simp only [translate_chunk, hmemo, translate_chunk_body, if_neg hne,
      hcache, if_neg hnl, hT]
    cases ok
    · rfl
    · rfl
  cases ok with
  | false =>
    obtain ⟨hr, hklen, hall⟩ := hk8 rfl
    have hklen5 : k = 5 := by simpa [chunkServices] using hklen
    refine ⟨k, hk1', hk5', ?_, ?_, ?_, ?_, ?_⟩
    · rw [hval]; exact hk5
    · rw [hval]; exact hk6
    · exact hk7
    · intro _
      exact ⟨hklen5, fun j hj => hall j (by omega)⟩
    · intro hneq
      rw [hval] at hneq
      exact absurd hr hneq
  | true =>
    obtain ⟨hkk, hsucc, htr, hneq⟩ := hk9 rfl
    refine ⟨k, hk1', hk5', ?_, ?_, ?_, ?_, ?_⟩
    · rw [hval]; exact hk5
    · rw [hval]; exact hk6
    · exact hk7
    · intro heq
      rw [hval] at heq
      exact absurd heq hneq
    · intro _
      rw [hval]
      refine ⟨hsucc, htr, ?_⟩
      show lookupA (load_translation_cache
          (save_translation_cache st1.disk
            (insertA (load_translation_cache st.disk source_code target_code)
              text r) source_code target_code)
          source_code target_code) text = some r
      rw [load_save_translation_cache, lookupA_insertA_self]

/-- The memoised `translate_chunk` makes at most five external strategy
invocations in one call. -/
lemma translate_chunk_calls_le (o : Oracle)
    (text source_code target_code : String) (st : TransState) :
    (translate_chunk o text source_code target_code st).2.calls
      ≤ st.calls + 5 := by
  by_cases hshort : (strTrim text).length < 2
  · rw [(translate_chunk_short_nocalls o text source_code target_code st hshort).1]
    omega
  · cases hm : lookupA st.memo (text, source_code, target_code) with
    | some r =>
      simp only [translate_chunk, hm]
      omega
    | none =>
      cases hc : cache_lookup st source_code target_code text with
      | some c =>
        simp only [translate_chunk, hm, translate_chunk_body]
        rw [if_neg (by intro h; rw [h] at hshort; exact hshort (by decide))]
        simp only [hc]
        omega
      | none =>
        obtain ⟨k, _, hk5, hcalls, _, _, _, _⟩ :=
          translate_chunk_services_spec o text source_code target_code st hm hc
            (by omega)
        rw [hcalls]
        omega

/-! ## Claim theorems -/

/-- C1: for every input document processed by `translate_pdf_with_images`
and by the robust translator's `create_translated_pdf`, the output has
exactly as many pages as the input and, page by page, the same width and
height (the page-order list of dimensions is preserved, which gives the
per-index statement). -/
theorem C1_output_page_dims_preserved (mapping : String → String)
    (doc : List Page) (source_lang target_lang : String)
    (blocksByPage : Nat → List (Block × String)) :
    outputPageCount (translate_pdf_with_images mapping doc source_lang target_lang)
        = doc.length ∧
      outputDims (translate_pdf_with_images mapping doc source_lang target_lang)
        = doc.map (fun p => (p.width, p.height)) ∧
      (create_translated_pdf doc blocksByPage).length = doc.length ∧
      (create_translated_pdf doc blocksByPage).map (fun p => (p.width, p.height))
        = doc.map (fun p => (p.width, p.height)) := by
  refine ⟨?_, ?_, ?_, ?_⟩
  · unfold translate_pdf_with_images
    split
    · simp [outputPageCount]
    · simp [outputPageCount]
  · unfold translate_pdf_with_images
    split
    · simp [outputDims]
    · simp [outputDims, reconstruct_page, List.map_map, Function.comp]
  · exact (create_translated_pdf_go_dims blocksByPage doc 0).2
  · exact (create_translated_pdf_go_dims blocksByPage doc 0).1

/-- C7: `format_language_code` maps human-readable language names and
alternate codes to the ISO 639-1 code the service expects, accepts
two-letter codes as-is (lower-cased), sends every input that matches no
recognition route (not in the special map, not two letters long, and
containing no extractable two-letter code pattern) to `auto`, and is a
total function, so it never fails. -/
theorem C7_format_language_code_total :
    format_language_code "spanish" = "es" ∧
      format_language_code "french" = "fr" ∧
      format_language_code "iw" = "he" ∧
      format_language_code "chinese" = "zh-CN" ∧
      format_language_code "klingon" = "auto" ∧
      (∀ code : String, code.length = 2 →
        lookupA language_map (toLowerStr code) = none →
        format_language_code code = toLowerStr code) ∧
      (∀ code : String, code ≠ "auto" → code ≠ "" →
        lookupA language_map (toLowerStr code) = none →
        find_iso2_from none (toLowerStr code).data = none →
        find_iso2_region_from none (toLowerStr code).data = none →
        code.length ≠ 2 →
        format_language_code code = "auto") := by
  refine ⟨by decide, by decide, by decide, by decide, by decide, ?_, ?_⟩
  · intro code hlen hmap
    have h1 : code ≠ "auto" := fun h => absurd hlen (by rw [h]; decide)
    have h2 : code ≠ "" := fun h => absurd hlen (by rw [h]; decide)
    unfold format_language_code
    rw [if_neg (by simp [h1, h2])]
    simp only [hmap, hlen]
    norm_num
  · intro code h1 h2 hmap hiso hregion hlen
    unfold format_language_code
    rw [if_neg (by simp [h1, h2])]
    simp only [hmap, hiso, hregion, hlen]
    split
    · simp [hlen]
    · simp [hlen]

/-- Witness for C7: the generic two-letter clause at the concrete code
`pt`, and the degrade-to-auto clause at the concrete code `xyz`. -/
theorem C7_format_language_code_total_witness :
    format_language_code "pt" = "pt" ∧ format_language_code "xyz" = "auto" := by
  refine ⟨?_, ?_⟩
  · exact C7_format_language_code_total.2.2.2.2.2.1 "pt" (by decide) (by decide)
  · exact C7_format_language_code_total.2.2.2.2.2.2 "xyz" (by decide) (by decide)
      (by decide) (by decide) (by decide) (by decide)

/-- C8: the initial rendered font size is the 11pt base scaled by
`min 1 (original_len / translated_len)` and lies between the 8pt floor
and the 11pt cap; the fit-failure reduction multiplies by the fixed
factor 0.8 and never drops below 6pt. -/
theorem C8_fontsize_policy (original_len translated_len : Nat)
    (h : 1 ≤ translated_len) :
    initial_fontsize original_len translated_len
        = max 8 (11 * min 1 ((original_len : ℚ) / (translated_len : ℚ))) ∧
      8 ≤ initial_fontsize original_len translated_len ∧
      initial_fontsize original_len translated_len ≤ 11 ∧
      (∀ fontsize : ℚ, shrink_fontsize fontsize = max 6 (fontsize * 0.8) ∧
        6 ≤ shrink_fontsize fontsize) := by
  have hmax : max 1 (translated_len : ℚ) = (translated_len : ℚ) :=
    max_eq_right (by exact_mod_cast h)
  refine ⟨by rw [initial_fontsize, hmax], le_max_left _ _, ?_, ?_⟩
  · unfold initial_fontsize
    apply max_le (by norm_num)
    calc 11 * min 1 ((original_len : ℚ) / max 1 (translated_len : ℚ))
        ≤ 11 * 1 := by
          apply mul_le_mul_of_nonneg_left (min_le_left _ _) (by norm_num)
      _ = 11 := by norm_num
  · intro fontsize
    exact ⟨rfl, le_max_left _ _⟩

/-- Witness for C8 at original length 30 and translated length 60: the
initial size is exactly the clamped scaled size and lies in [8, 11]. -/
theorem C8_fontsize_policy_witness :
    1 ≤ 60 ∧ 8 ≤ initial_fontsize 30 60 ∧ initial_fontsize 30 60 ≤ 11 := by
  refine ⟨by decide, ?_, ?_⟩
  · exact (C8_fontsize_policy 30 60 (by decide)).2.1
  · exact (C8_fontsize_policy 30 60 (by decide)).2.2.1

/-- C9 counterexample: a cache entry written by a previous run for the
pair (es, en) is NOT present at the start of the next
`translate_pdf_with_images` run, because the run deletes the pair's cache
file before translating (`pdf_processor.py` lines 1171-1183); the cache
the run starts from is empty. -/
theorem C9_counterexample :
    pipeline_start_cache
        [(get_cache_path "es" "en", [("hola", "hello")])] "es" "en" = [] ∧
      lookupA (pipeline_start_cache
        [(get_cache_path "es" "en", [("hola", "hello")])] "es" "en") "hola"
        = none := by
  decide

/-- C9 amended: the pipeline deletes the language pair's cache file at the
start of each run, so every run begins with an empty translation cache
for its pair regardless of what previous runs stored; entries written by
`save_translation_cache` persist on disk and are found by subsequent
loads (reuse within the run and until the next run deletes the file). -/
theorem C9_cache_cleared_then_persists (disk : Disk)
    (cache : List (String × String)) (source_lang target_lang : String) :
    pipeline_start_cache disk source_lang target_lang = [] ∧
      load_translation_cache
          (save_translation_cache disk cache source_lang target_lang)
          source_lang target_lang = cache := by
  refine ⟨?_, ?_⟩
  · unfold pipeline_start_cache load_translation_cache clear_cache_file
    rw [lookupA_removeA_self]
    rfl
  · unfold load_translation_cache save_translation_cache
    rw [lookupA_insertA_self]
    rfl

/-- C10: the OCR post-processing replaces every `|` with `I`, every `0`
with `O` and every `1` with `l`, globally over the whole extracted text
(digits in numbers included), so none of the three characters ever
appears in the output text. -/
theorem C10_ocr_global_replacements (s : String) :
    fix_ocr_errors s = String.mk (s.data.map (fun c =>
        if c = '|' then 'I' else if c = '0' then 'O'
        else if c = '1' then 'l' else c)) ∧
      '|' ∉ (fix_ocr_errors s).data ∧
      '0' ∉ (fix_ocr_errors s).data ∧
      '1' ∉ (fix_ocr_errors s).data := by
  have heq : fix_ocr_errors s = String.mk (s.data.map (fun c =>
      if c = '|' then 'I' else if c = '0' then 'O'
      else if c = '1' then 'l' else c)) := by
    unfold fix_ocr_errors
    rw [fix_ocr_errors_eq_map]
  refine ⟨heq, ?_, ?_, ?_⟩ <;>
    · rw [heq]
      intro hmem
      obtain ⟨c, _, hc⟩ := List.mem_map.mp hmem
      have := ocrFix_char_ne c
      simp_all

/-- C2 counterexample: with every translation service raising,
`translate_chunk` does not return the original input text when the input
carries surrounding whitespace: for the input `" hola mundo "` it returns
the stripped `"hola mundo"`. -/
theorem C2_counterexample :
    (translate_chunk outageOracle " hola mundo " "es" "en" ⟨[], [], 0, []⟩).1
        = "hola mundo" ∧
      ("hola mundo" : String) ≠ " hola mundo " := by
  refine ⟨by decide, by decide⟩

/-- C2 amended: the translation operation never raises (it is a total
function of the oracle outcomes); when every external attempt raises, is
blank, or returns the input unchanged, `translate_chunk` returns the
stripped input text (equal to the input whenever the input has no
surrounding whitespace), the robust translator's `translate_text` returns
the input exactly (when non-blank), and under a full outage the
reconstructed pages render, for every block, either the original text or
its stripped form. -/
theorem C2_failure_returns_original (o : Oracle) (osvc : Nat → Option String)
    (text source_code target_code : String) (st : TransState)
    (hmemo : lookupA st.memo (text, source_code, target_code) = none)
    (hcache : cache_lookup st source_code target_code text = none)
    (ho : ∀ (a : Attempt) (n : Nat),
      o a n = none ∨ o a n = some "" ∨ o a n = some (strTrim text))
    (hsvc : ∀ n, osvc n = none) :
    (translate_chunk o text source_code target_code st).1 = strTrim text ∧
      (strTrim text ≠ "" →
        robust_translate_text osvc text source_code target_code = text) ∧
      (∀ mapping : String → String, (∀ s, mapping s = strTrim s) →
        ∀ b : String, renderBlockText mapping b = b ∨
          renderBlockText mapping b = strTrim b) := by
  refine ⟨?_, ?_, ?_⟩
  · by_cases hshort : (strTrim text).length < 2
    · exact translate_chunk_short_result o text source_code target_code st
        hmemo hcache hshort
    · by_contra hneq
      obtain ⟨k, _, _, _, _, _, _, hsucc⟩ :=
        translate_chunk_services_spec o text source_code target_code st
          hmemo hcache (by omega)
      obtain ⟨hor, htr, _⟩ := hsucc hneq
      rcases ho ((chunkServices (format_language_code source_code)
          (format_language_code target_code)).getD (k - 1) defaultAttempt)
          (st.calls + (k - 1)) with hnone | hblank | hsame
      · rw [hnone] at hor
        exact Option.noConfusion hor
      · rw [hblank] at hor
        injection hor with h
        rw [← h] at htr
        exact htr (by decide)
      · rw [hsame] at hor
        injection hor with h
        exact hneq h.symm
  · intro hne
    unfold robust_translate_text
    rw [if_neg hne]
    by_cases hst : source_code = target_code
    · rw [if_pos hst]
    · rw [if_neg hst]
      simp only [hsvc]
  · intro mapping hmap b
    simp only [renderBlockText]
    by_cases h1 : (strTrim b).length < 2
    · rw [if_pos h1]
      exact Or.inl rfl
    · rw [if_neg h1]
      rw [hmap b]
      by_cases h2 : strTrim (strTrim b) = "" ∨ strTrim b = b
      · rw [if_pos h2]
        exact Or.inl rfl
      · rw [if_neg h2]
        exact Or.inr rfl

/-- Witness for C2 at the text `hola` with a full outage: the chunk
translator returns the stripped input and the robust translator returns
the input exactly. -/
theorem C2_failure_returns_original_witness :
    (translate_chunk outageOracle "hola" "es" "en" ⟨[], [], 0, []⟩).1
        = strTrim "hola" ∧
      robust_translate_text outageOracle1 "hola" "es" "en" = "hola" :=
  ⟨(C2_failure_returns_original outageOracle outageOracle1 "hola" "es" "en"
      ⟨[], [], 0, []⟩ rfl rfl (fun _ _ => Or.inl rfl) (fun _ => rfl)).1,
   (C2_failure_returns_original outageOracle outageOracle1 "hola" "es" "en"
      ⟨[], [], 0, []⟩ rfl rfl (fun _ _ => Or.inl rfl) (fun _ => rfl)).2.1
     (by decide)⟩

/-- C3 counterexample: the formatted codes of `spanish` and `es` are
equal (both `es`, not `auto`), yet the robust translator's
`translate_text` does not return its input: its same-language check
compares the raw, unformatted codes, so with a service returning a
translation the output differs from the input. -/
theorem C3_counterexample :
    format_language_code "spanish" = format_language_code "es" ∧
      format_language_code "spanish" ≠ "auto" ∧
      robust_translate_text (constOracle1 "hello world") "hola mundo"
          "spanish" "es" = "hello world" ∧
      ("hello world" : String) ≠ "hola mundo" := by
  refine ⟨by decide, by decide, by decide, by decide⟩

/-- C3 amended: when the formatted source and target codes are equal and
not `auto`, `translate_pdf_with_images` copies the input document to the
output unchanged; the robust translator's `translate_text` returns its
input unchanged when the raw (unformatted) codes are equal — raw, not
formatted, equality is what its short-circuit tests. -/
theorem C3_same_language_identity (mapping : String → String) (doc : List Page)
    (o : Nat → Option String) (text source_lang target_lang : String)
    (hfmt : format_language_code source_lang = format_language_code target_lang)
    (hauto : format_language_code source_lang ≠ "auto") :
    translate_pdf_with_images mapping doc source_lang target_lang
        = PdfOutput.copied doc ∧
      (source_lang = target_lang → strTrim text ≠ "" →
        robust_translate_text o text source_lang target_lang = text) := by
  refine ⟨?_, ?_⟩
  · unfold translate_pdf_with_images
    rw [if_pos ⟨hfmt, hauto⟩]
  · intro hraw hne
    unfold robust_translate_text
    rw [if_neg hne, if_pos hraw]

/-- Witness for C3 at the pair (es, es): the pipeline copies the (empty)
document and the robust translator returns its input. -/
theorem C3_same_language_identity_witness :
    translate_pdf_with_images id [] "es" "es" = PdfOutput.copied [] ∧
      robust_translate_text outageOracle1 "hola" "es" "es" = "hola" :=
  ⟨(C3_same_language_identity id [] outageOracle1 "hola" "es" "es" rfl
      (by decide)).1,
   (C3_same_language_identity id [] outageOracle1 "hola" "es" "es" rfl
      (by decide)).2 rfl (by decide)⟩

/-- C4: calling `translate_chunk` twice with the same arguments returns
an identical result the second time and leaves the state untouched (no
external translation call is issued on the second call, which is served
from the memo cache); one call makes at most one set (five) of external
strategy invocations; and when the first call actually translated
(memo and disk-cache misses, result different from the cleaned input),
the non-blank result is stored in the pair's disk cache under the
content key of the text — exactly the entry a fresh-memo second call
would return. -/
theorem C4_cache_idempotence (o : Oracle)
    (text source_code target_code : String) (st : TransState) :
    (translate_chunk o text source_code target_code
        ((translate_chunk o text source_code target_code st).2)).1
      = (translate_chunk o text source_code target_code st).1 ∧
    (translate_chunk o text source_code target_code
        ((translate_chunk o text source_code target_code st).2)).2
      = (translate_chunk o text source_code target_code st).2 ∧
    (translate_chunk o text source_code target_code st).2.calls
      ≤ st.calls + 5 ∧
    (lookupA st.memo (text, source_code, target_code) = none →
      cache_lookup st source_code target_code text = none →
      (translate_chunk o text source_code target_code st).1 ≠ strTrim text →
      lookupA (load_translation_cache
          (translate_chunk o text source_code target_code st).2.disk
          source_code target_code) text
        = some (translate_chunk o text source_code target_code st).1 ∧
      strTrim (translate_chunk o text source_code target_code st).1 ≠ "") := by
  have hsecond : translate_chunk o text source_code target_code
      ((translate_chunk o text source_code target_code st).2)
      = translate_chunk o text source_code target_code st := by
    cases hm : lookupA st.memo (text, source_code, target_code) with
    | some r => simp only [translate_chunk, hm]
    | none =>
      simp only [translate_chunk, hm]
      simp [lookupA]
  refine ⟨by rw [hsecond], by rw [hsecond],
    translate_chunk_calls_le o text source_code target_code st, ?_⟩
  intro hmemo hcache hneq
  by_cases hshort : (strTrim text).length < 2
  · exact absurd (translate_chunk_short_result o text source_code target_code
      st hmemo hcache hshort) hneq
  · obtain ⟨k, _, _, _, _, _, _, hsucc⟩ :=
      translate_chunk_services_spec o text source_code target_code st
        hmemo hcache (by omega)
    obtain ⟨_, htr, hcachemem⟩ := hsucc hneq
    exact ⟨hcachemem, htr⟩

/-- Witness for C4 with a service that translates `hola` to `hello`:
the second call returns the identical result, and the disk cache holds
the non-blank entry under the content key. -/
theorem C4_cache_idempotence_witness :
    (translate_chunk (constOracle "hello") "hola" "es" "en"
        ((translate_chunk (constOracle "hello") "hola" "es" "en"
          ⟨[], [], 0, []⟩).2)).1
      = (translate_chunk (constOracle "hello") "hola" "es" "en"
          ⟨[], [], 0, []⟩).1 ∧
    lookupA (load_translation_cache
        (translate_chunk (constOracle "hello") "hola" "es" "en"
          ⟨[], [], 0, []⟩).2.disk "es" "en") "hola"
      = some (translate_chunk (constOracle "hello") "hola" "es" "en"
          ⟨[], [], 0, []⟩).1 :=
  ⟨(C4_cache_idempotence (constOracle "hello") "hola" "es" "en"
      ⟨[], [], 0, []⟩).1,
   ((C4_cache_idempotence (constOracle "hello") "hola" "es" "en"
      ⟨[], [], 0, []⟩).2.2.2 rfl rfl (by decide)).1⟩

/-- C5 counterexample: with every strategy returning the input unchanged,
the second external attempt of `translate_chunk` is Google with source
`auto`, not a retry of the first attempt (Google with source `es`): the
claimed first fallback — retry the same service up to 3 times with a
backoff — does not exist in `translate_chunk`, which escalates to
auto-detection immediately. -/
theorem C5_counterexample :
    (translate_chunk (constOracle "hola") "hola" "es" "en"
          ⟨[], [], 0, []⟩).2.trace.getD 0 defaultAttempt
        = ⟨Backend.google, "es", "en"⟩ ∧
      (translate_chunk (constOracle "hola") "hola" "es" "en"
          ⟨[], [], 0, []⟩).2.trace.getD 1 defaultAttempt
        = ⟨Backend.google, "auto", "en"⟩ ∧
      (⟨Backend.google, "auto", "en"⟩ : Attempt)
        ≠ ⟨Backend.google, "es", "en"⟩ := by
  refine ⟨by decide, by decide, by decide⟩

/-- C5 amended: for a non-cached, translatable text the strategy order of
`translate_chunk` is Google with the formatted source, Google with auto
detection, MyMemory with the formatted source, MyMemory with auto
detection, then sentence-level chunking; an in-order prefix of these
five is consumed, each strategy runs only after every earlier one
failed (raised, blank, or unchanged), the unchanged input is accepted
only after all five strategies are exhausted (so at least one fallback
is always attempted), and any other returned value is the first
changed, non-blank strategy result. -/
theorem C5_fallback_order (o : Oracle)
    (text source_code target_code : String) (st : TransState)
    (hmemo : lookupA st.memo (text, source_code, target_code) = none)
    (hcache : cache_lookup st source_code target_code text = none)
    (hlen : 2 ≤ (strTrim text).length) :
    chunkServices (format_language_code source_code)
        (format_language_code target_code)
      = [⟨Backend.google, format_language_code source_code,
            format_language_code target_code⟩,
         ⟨Backend.google, "auto", format_language_code target_code⟩,
         ⟨Backend.mymemory, format_language_code source_code,
            format_language_code target_code⟩,
         ⟨Backend.mymemory, "auto", format_language_code target_code⟩,
         ⟨Backend.chunked, format_language_code source_code,
            format_language_code target_code⟩] ∧
      ∃ k : Nat, 1 ≤ k ∧ k ≤ 5 ∧
        (translate_chunk o text source_code target_code st).2.trace
          = st.trace ++ (chunkServices (format_language_code source_code)
              (format_language_code target_code)).take k ∧
        (∀ j, j + 1 < k →
          ¬ GoodRes (o ((chunkServices (format_language_code source_code)
              (format_language_code target_code)).getD j defaultAttempt)
            (st.calls + j)) (strTrim text)) ∧
        ((translate_chunk o text source_code target_code st).1
            = strTrim text → k = 5) ∧
        ((translate_chunk o text source_code target_code st).1
            ≠ strTrim text →
          o ((chunkServices (format_language_code source_code)
                (format_language_code target_code)).getD (k - 1)
              defaultAttempt) (st.calls + (k - 1))
            = some (translate_chunk o text source_code target_code st).1 ∧
          strTrim (translate_chunk o text source_code target_code st).1
            ≠ "") := by
  obtain ⟨k, hk1, hk5, hcalls, htrace, hpre, hunch, hsucc⟩ :=
    translate_chunk_services_spec o text source_code target_code st
      hmemo hcache hlen
  exact ⟨rfl, k, hk1, hk5, htrace, hpre, fun h => (hunch h).1,
    fun h => ⟨(hsucc h).1, (hsucc h).2.1⟩⟩

/-- Witness for C5 under a full outage at the text `hola` from `es` to
`en`, starting from the fresh state. -/
theorem C5_fallback_order_witness :
    2 ≤ (strTrim "hola").length ∧
      (chunkServices (format_language_code "es") (format_language_code "en")
          = [⟨Backend.google, format_language_code "es",
                format_language_code "en"⟩,
             ⟨Backend.google, "auto", format_language_code "en"⟩,
             ⟨Backend.mymemory, format_language_code "es",
                format_language_code "en"⟩,
             ⟨Backend.mymemory, "auto", format_language_code "en"⟩,
             ⟨Backend.chunked, format_language_code "es",
                format_language_code "en"⟩] ∧
        ∃ k : Nat, 1 ≤ k ∧ k ≤ 5 ∧
          (translate_chunk outageOracle "hola" "es" "en"
              ⟨[], [], 0, []⟩).2.trace
            = [] ++ (chunkServices (format_language_code "es")
                (format_language_code "en")).take k ∧
          (∀ j, j + 1 < k →
            ¬ GoodRes (outageOracle ((chunkServices (format_language_code "es")
                (format_language_code "en")).getD j defaultAttempt)
              (0 + j)) (strTrim "hola")) ∧
          ((translate_chunk outageOracle "hola" "es" "en"
              ⟨[], [], 0, []⟩).1 = strTrim "hola" → k = 5) ∧
          ((translate_chunk outageOracle "hola" "es" "en"
              ⟨[], [], 0, []⟩).1 ≠ strTrim "hola" →
            outageOracle ((chunkServices (format_language_code "es")
                  (format_language_code "en")).getD (k - 1) defaultAttempt)
                (0 + (k - 1))
              = some (translate_chunk outageOracle "hola" "es" "en"
                  ⟨[], [], 0, []⟩).1 ∧
            strTrim (translate_chunk outageOracle "hola" "es" "en"
                ⟨[], [], 0, []⟩).1 ≠ "")) :=
  ⟨by decide,
   C5_fallback_order outageOracle "hola" "es" "en" ⟨[], [], 0, []⟩ rfl rfl
     (by decide)⟩

/-- C6: for every fragment whose stripped text is shorter than 2
characters, no external translation call is issued on any path of
`translate_chunk` (call counter and attempt trace are unchanged), the
fragment is returned cleaned on a memo and cache miss, and the
span-processing loop of the guaranteed translator skips such fragments
entirely. -/
theorem C6_short_fragment_no_translation (o : Oracle)
    (text source_code target_code : String) (st : TransState)
    (hshort : (strTrim text).length < 2) :
    (translate_chunk o text source_code target_code st).2.calls = st.calls ∧
      (translate_chunk o text source_code target_code st).2.trace = st.trace ∧
      (lookupA st.memo (text, source_code, target_code) = none →
        cache_lookup st source_code target_code text = none →
        (translate_chunk o text source_code target_code st).1 = strTrim text) ∧
      (∀ raw : String, (strTrim raw).length < 2 → span_skip raw = true) := by
  obtain ⟨h1, h2⟩ :=
    translate_chunk_short_nocalls o text source_code target_code st hshort
  refine ⟨h1, h2, ?_, ?_⟩
  · intro hmemo hcache
    exact translate_chunk_short_result o text source_code target_code st
      hmemo hcache hshort
  · intro raw h
    simp [span_skip, h]

/-- Witness for C6 at the one-character fragment `x` and the noise span
`" . "`. -/
theorem C6_short_fragment_no_translation_witness :
    (strTrim "x").length < 2 ∧
      (translate_chunk outageOracle "x" "es" "en" ⟨[], [], 0, []⟩).2.calls
        = 0 ∧
      (translate_chunk outageOracle "x" "es" "en" ⟨[], [], 0, []⟩).1
        = strTrim "x" ∧
      span_skip " . " = true :=
  ⟨by decide,
   (C6_short_fragment_no_translation outageOracle "x" "es" "en"
      ⟨[], [], 0, []⟩ (by decide)).1,
   (C6_short_fragment_no_translation outageOracle "x" "es" "en"
      ⟨[], [], 0, []⟩ (by decide)).2.2.1 rfl rfl,
   (C6_short_fragment_no_translation outageOracle "x" "es" "en"
      ⟨[], [], 0, []⟩ (by decide)).2.2.2 " . " (by decide)⟩

end PDFTranslator
